import Mathlib

/-!
Verification development for the msfs-simconnect-api-wrapper repository.

The JavaScript source is shallowly embedded: each stateful method becomes a
pure Lean function over an explicit state record, and event-driven code
becomes a fold over an explicit list of operations or inbound messages.
Machine numbers that the code treats as integers are modelled as `Nat`/`Int`;
quantities the code treats as JS numbers participating in arithmetic are
modelled as `Rat`. JS strings that the code slices and compares are modelled
as `List Char`; JS `Set` objects are modelled as duplicate-free `List Nat`
(the code only ever uses `has`/`add`/`delete`, and `add` is only reached
after a failed `has`).
-/

/-! ### ResourceIdAllocator (src `MSFS_API.nextId` / `MSFS_API.releaseId`)

JS state: `this.id` (counter, initialised to 1) and `this.reserved`
(a `Set`, initialised empty). -/

structure AllocState where
  id : Nat
  reserved : List Nat
deriving Repr, DecidableEq

/-- Fueled form of the `while (this.reserved.has(id)) id = this.id++` loop of
`nextId`: starting from `cur`, returns the first value not in `reserved`. The
JS loop is unbounded but terminates because each iteration consumes a distinct
member of the finite reserved set; the fuel passed by `findFree` is proven
sufficient (`findFreeGo_spec`), so the fuel-exhausted branch is unreachable. -/
def findFreeGo (reserved : List Nat) : Nat → Nat → Nat
  | 0, cur => cur
  | fuel + 1, cur =>
    if cur ∈ reserved then findFreeGo reserved fuel (cur + 1) else cur

/-- The reservation-skipping loop of `nextId`. The loop has no wraparound
check of its own, so the result can run past the ceiling. -/
def findFree (reserved : List Nat) (cur : Nat) : Nat :=
  findFreeGo reserved (reserved.length + 1) cur

theorem filter_ge_succ_length_lt (l : List Nat) (cur : Nat) (h : cur ∈ l) :
    (l.filter (fun x => cur + 1 ≤ x)).length <
      (l.filter (fun x => cur ≤ x)).length := by
  induction l with
  | nil => cases h
  | cons a t ih =>
    have hmono : (t.filter (fun x => cur + 1 ≤ x)).length ≤
        (t.filter (fun x => cur ≤ x)).length := by
      refine List.Sublist.length_le (List.monotone_filter_right t ?_)
      intro x hx
      simp only [decide_eq_true_eq] at hx ⊢
      omega
    by_cases h1 : cur + 1 ≤ a
    · have ha : a ≠ cur := by omega
      have hmem : cur ∈ t := by
        rcases List.mem_cons.mp h with h' | h'
        · exact absurd h'.symm ha
        · exact h'
      have h2 : cur ≤ a := by omega
      have ht := ih hmem
      simp [List.filter_cons, h1, h2]
      omega
    · by_cases h2 : cur ≤ a
      · simp [List.filter_cons, h1, h2]
        omega
      · have ha : a ≠ cur := by omega
        have hmem : cur ∈ t := by
          rcases List.mem_cons.mp h with h' | h'
          · exact absurd h'.symm ha
          · exact h'
        have ht := ih hmem
        simp [List.filter_cons, h1, h2]
        omega

theorem findFreeGo_spec (reserved : List Nat) :
    ∀ (fuel cur : Nat),
      (reserved.filter (fun x => cur ≤ x)).length < fuel →
      findFreeGo reserved fuel cur ∉ reserved ∧
        cur ≤ findFreeGo reserved fuel cur ∧
        ∀ m, cur ≤ m → m ∉ reserved → findFreeGo reserved fuel cur ≤ m := by
  intro fuel
  induction fuel with
  | zero => intro cur h; omega
  | succ fuel ih =>
    intro cur h
    by_cases hc : cur ∈ reserved
    · have hlt := filter_ge_succ_length_lt reserved cur hc
      have hfuel : (reserved.filter (fun x => cur + 1 ≤ x)).length < fuel := by
        omega
      obtain ⟨h1, h2, h3⟩ := ih (cur + 1) hfuel
      rw [findFreeGo, if_pos hc]
      refine ⟨h1, by omega, ?_⟩
      intro m hm hmf
      have : m ≠ cur := fun e => hmf (e ▸ hc)
      exact h3 m (by omega) hmf
    · rw [findFreeGo, if_neg hc]
      exact ⟨hc, le_refl _, fun m hm _ => hm⟩

theorem findFree_spec (reserved : List Nat) (cur : Nat) :
    findFree reserved cur ∉ reserved ∧
      cur ≤ findFree reserved cur ∧
      ∀ m, cur ≤ m → m ∉ reserved → findFree reserved cur ≤ m :=
  findFreeGo_spec reserved (reserved.length + 1) cur
    (Nat.lt_succ_of_le (List.length_filter_le _ _))

/-- `MSFS_API.nextId`: wrap the counter to 0 once it exceeds 900, hand out the
first unreserved value from the counter onwards, mark it reserved, and leave
the counter one past the returned value. -/
def nextId (s : AllocState) : Nat × AllocState :=
  let start := if s.id > 900 then 0 else s.id
  let r := findFree s.reserved start
  (r, { id := r + 1, reserved := s.reserved ++ [r] })

/-- `MSFS_API.releaseId`: `this.reserved.delete(id)`. -/
def releaseId (s : AllocState) (i : Nat) : AllocState :=
  { s with reserved := s.reserved.erase i }

/-- One client-visible allocator call. -/
inductive AllocOp where
  | next
  | release (i : Nat)
deriving Repr, DecidableEq

def applyAllocOp (s : AllocState) : AllocOp → AllocState
  | .next => (nextId s).2
  | .release i => releaseId s i

/-- The allocator state after a sequence of `nextId`/`releaseId` calls on a
fresh `MSFS_API` instance (`this.id = 1`, `this.reserved = new Set()`). -/
def runAlloc (ops : List AllocOp) : AllocState :=
  ops.foldl applyAllocOp { id := 1, reserved := [] }

theorem findFree_not_mem (reserved : List Nat) (cur : Nat) :
    findFree reserved cur ∉ reserved :=
  (findFree_spec reserved cur).1

theorem findFree_ge (reserved : List Nat) (cur : Nat) :
    cur ≤ findFree reserved cur :=
  (findFree_spec reserved cur).2.1

theorem findFree_le_of_free (reserved : List Nat) (cur : Nat) :
    ∀ m, cur ≤ m → m ∉ reserved → findFree reserved cur ≤ m :=
  (findFree_spec reserved cur).2.2

/-- C1: after any sequence of `nextId`/`releaseId` calls on one instance, the
value returned by a further `nextId` call is not in the reserved set at the
moment it is returned, and is in the reserved set immediately afterwards. -/
theorem nextId_fresh_then_reserved (ops : List AllocOp) :
    (nextId (runAlloc ops)).1 ∉ (runAlloc ops).reserved ∧
      (nextId (runAlloc ops)).1 ∈ ((nextId (runAlloc ops)).2).reserved := by
  constructor
  · exact findFree_not_mem _ _
  · simp [nextId]

theorem findFree_of_not_mem (l : List Nat) (x : Nat) (h : x ∉ l) :
    findFree l x = x := by
  simp [findFree, findFreeGo, h]

theorem runAlloc_replicate_next (n : Nat) (h : n ≤ 900) :
    runAlloc (List.replicate n AllocOp.next) =
      { id := n + 1, reserved := List.range' 1 n } := by
  induction n with
  | zero => rfl
  | succ n ih =>
    have hn : n ≤ 900 := by omega
    rw [List.replicate_succ', runAlloc, List.foldl_append]
    rw [show List.foldl applyAllocOp { id := 1, reserved := [] }
          (List.replicate n AllocOp.next) = runAlloc (List.replicate n AllocOp.next) from rfl]
    rw [ih hn]
    show (nextId { id := n + 1, reserved := List.range' 1 n }).2 = _
    have hstart : (if n + 1 > 900 then 0 else n + 1) = n + 1 := by
      rw [if_neg]; omega
    have hnm : n + 1 ∉ List.range' 1 n := by
      intro hmem
      have := List.mem_range'.mp hmem
      omega
    have hff : findFree (List.range' 1 n) (n + 1) = n + 1 :=
      findFree_of_not_mem _ _ hnm
    have hconcat := List.range'_1_concat 1 n
    rw [Nat.add_comm 1 n] at hconcat
    simp only [nextId, hstart, hff]
    rw [hconcat]

/-- C2 counterexample: on a fresh instance, the 901st `nextId` call returns 0,
which is outside the claimed range 1–900 (the counter wraps to 0, not 1). -/
theorem nextId_returns_zero_after_wrap :
    (nextId (runAlloc (List.replicate 900 AllocOp.next))).1 = 0 ∧
      ¬(1 ≤ (nextId (runAlloc (List.replicate 900 AllocOp.next))).1) := by
  have hs := runAlloc_replicate_next 900 (by omega)
  have hzero : (0 : Nat) ∉ List.range' 1 900 := by
    intro hmem
    have := List.mem_range'.mp hmem
    omega
  have hid : (runAlloc (List.replicate 900 AllocOp.next)).id = 901 := by
    rw [hs]
  have hres : (runAlloc (List.replicate 900 AllocOp.next)).reserved =
      List.range' 1 900 := by
    rw [hs]
  have hfst : ∀ s : AllocState,
      (nextId s).1 = findFree s.reserved (if s.id > 900 then 0 else s.id) :=
    fun _ => rfl
  have : (nextId (runAlloc (List.replicate 900 AllocOp.next))).1 = 0 := by
    rw [hfst, hid, hres, if_pos (by omega)]
    exact findFree_of_not_mem _ _ hzero
  exact ⟨this, by omega⟩

/-- C2 amended: provided some value between the (possibly wrapped) counter and
900 is unreserved, the value returned by `nextId` lies between the wrapped
counter and 900; and when the counter has exceeded 900 (with 0 unreserved) the
value returned is 0, not 1. -/
theorem nextId_range_amended (s : AllocState) (m : Nat)
    (h1 : (if s.id > 900 then 0 else s.id) ≤ m) (h2 : m ≤ 900)
    (h3 : m ∉ s.reserved) :
    (if s.id > 900 then 0 else s.id) ≤ (nextId s).1 ∧ (nextId s).1 ≤ 900 ∧
      (900 < s.id → 0 ∉ s.reserved → (nextId s).1 = 0) := by
  refine ⟨findFree_ge _ _, le_trans (findFree_le_of_free _ _ m h1 h3) h2, ?_⟩
  intro hgt hzero
  have h0 : (if s.id > 900 then 0 else s.id) = 0 := if_pos hgt
  show findFree s.reserved (if s.id > 900 then 0 else s.id) = 0
  rw [h0]
  have := findFree_le_of_free s.reserved 0 0 (le_refl 0) hzero
  omega

/-- Witness for `nextId_range_amended` at the initial state with m = 1. -/
theorem nextId_range_amended_witness :
    ((if (1 : Nat) > 900 then 0 else 1) ≤ 1 ∧ 1 ≤ 900 ∧
        (1 : Nat) ∉ ([] : List Nat)) ∧
      ((if (1 : Nat) > 900 then 0 else 1) ≤
          (nextId { id := 1, reserved := [] }).1 ∧
        (nextId { id := 1, reserved := [] }).1 ≤ 900 ∧
        (900 < 1 → 0 ∉ ([] : List Nat) →
          (nextId { id := 1, reserved := [] }).1 = 0)) :=
  ⟨⟨by decide, by decide, by decide⟩,
    nextId_range_amended { id := 1, reserved := [] } 1 (by decide) (by decide)
      (by decide)⟩

/-! ### EventMultiplexer (src `MSFS_API.addEventListener` /
`removeEventListener` / `handleSystemEvent`)

The JS state is `this.eventListeners`, an object that maps each event name —
and, as an alias to the same record, its numeric event ID — to
`{ eventID, eventName, data, handlers }`. Handler functions are modelled by
numeric handler tokens, and a handler invocation `h(v)` is recorded in an
`invocations` trace rather than executed. Calls to
`handle.subscribeToSystemEvent` are likewise recorded in a `subscribeCalls`
trace. Event payloads are JS numbers here, modelled as `Int`; the
truthiness test `if (data)` on a number is false exactly on 0 (and on the
initial `undefined`, modelled as `none`). -/

structure Subscription where
  eventID : Nat
  eventName : String
  data : Option Int
  handlers : List Nat
deriving Repr, DecidableEq

structure ApiState where
  alloc : AllocState
  listeners : List Subscription
  subscribeCalls : List (Nat × String)
  invocations : List (Nat × Int)
deriving Repr, DecidableEq

def initApiState : ApiState :=
  { alloc := { id := 1, reserved := [] }
    listeners := []
    subscribeCalls := []
    invocations := [] }

/-- Lookup `this.eventListeners[eventName]`. -/
def findByName (l : List Subscription) (name : String) : Option Subscription :=
  l.find? (fun sub => sub.eventName == name)

/-- Lookup `this.eventListeners[eventID]` (the numeric alias key). -/
def findById (l : List Subscription) (i : Nat) : Option Subscription :=
  l.find? (fun sub => sub.eventID == i)

/-- Mutation of the record shared by the name key and the id alias key. -/
def updateByName (l : List Subscription) (name : String)
    (f : Subscription → Subscription) : List Subscription :=
  l.map (fun sub => if sub.eventName == name then f sub else sub)

def updateById (l : List Subscription) (i : Nat)
    (f : Subscription → Subscription) : List Subscription :=
  l.map (fun sub => if sub.eventID == i then f sub else sub)

/-- `MSFS_API.addEventListener`: on the first registration for a name,
allocate an ID, issue one `subscribeToSystemEvent` call, and create the
subscription with the handler as sole listener; otherwise append the handler
and, when `if (data)` holds (the cached value is defined and truthy), invoke
it synchronously with the cached value. -/
def addEventListener (s : ApiState) (eventName : String) (h : Nat) :
    ApiState :=
  match findByName s.listeners eventName with
  | none =>
    let (eventID, alloc') := nextId s.alloc
    { s with
      alloc := alloc'
      listeners := s.listeners ++
        [{ eventID := eventID, eventName := eventName, data := none,
           handlers := [h] }]
      subscribeCalls := s.subscribeCalls ++ [(eventID, eventName)] }
  | some sub =>
    { s with
      listeners := updateByName s.listeners eventName
        (fun sub => { sub with handlers := sub.handlers ++ [h] })
      invocations := s.invocations ++
        (match sub.data with
         | some v => if v = 0 then [] else [(h, v)]
         | none => []) }

/-- `MSFS_API.removeEventListener`: reads `e[eventName].handlers` without a
guard, so a name with no subscription entry throws a `TypeError` (modelled as
`none`); otherwise splices out the first matching handler. -/
def removeEventListener (s : ApiState) (eventName : String) (h : Nat) :
    Option ApiState :=
  match findByName s.listeners eventName with
  | none => none
  | some _ =>
    some { s with
      listeners := updateByName s.listeners eventName
        (fun sub => { sub with handlers := sub.handlers.erase h }) }

/-- `MSFS_API.handleSystemEvent`: look the subscription up by the event ID;
a missing entry is a logged anomaly and the event is dropped; otherwise store
the payload as the last value and invoke every handler with it in order. -/
def handleSystemEvent (s : ApiState) (eventID : Nat) (data : Int) : ApiState :=
  match findById s.listeners eventID with
  | none => s
  | some sub =>
    { s with
      listeners := updateById s.listeners eventID
        (fun sub => { sub with data := some data })
      invocations := s.invocations ++ sub.handlers.map (fun h => (h, data)) }

inductive ApiOp where
  | add (name : String) (h : Nat)
  | dispatch (eventID : Nat) (data : Int)
  | remove (name : String) (h : Nat)
deriving Repr, DecidableEq

/-- One event-multiplexer step; `none` models an uncaught `TypeError`. -/
def stepApi (s : ApiState) : ApiOp → Option ApiState
  | .add name h => some (addEventListener s name h)
  | .dispatch i d => some (handleSystemEvent s i d)
  | .remove name h => removeEventListener s name h

def runApiFrom (s : ApiState) : List ApiOp → Option ApiState
  | [] => some s
  | op :: ops =>
    match stepApi s op with
    | none => none
    | some s' => runApiFrom s' ops

/-- The multiplexer state after a sequence of listener registrations,
inbound events and listener removals on a fresh `MSFS_API` instance. -/
def runApi (ops : List ApiOp) : Option ApiState :=
  runApiFrom initApiState ops

/-- Number of `subscribeToSystemEvent` calls issued so far for `name`. -/
def subscribeCount (s : ApiState) (name : String) : Nat :=
  (s.subscribeCalls.filter (fun c => c.2 == name)).length

theorem findByName_map_isSome (l : List Subscription) (name : String)
    (g : Subscription → Subscription)
    (hg : ∀ sub, (g sub).eventName = sub.eventName) :
    (findByName (l.map g) name).isSome = (findByName l name).isSome := by
  induction l with
  | nil => rfl
  | cons a t ih =>
    unfold findByName at *
    simp only [List.map_cons, List.find?_cons, hg]
    cases hcc : (a.eventName == name) with
    | true => simp
    | false => simpa using ih

theorem findByName_updateByName_isSome (l : List Subscription)
    (n name : String) (f : Subscription → Subscription)
    (hf : ∀ sub, (f sub).eventName = sub.eventName) :
    (findByName (updateByName l n f) name).isSome =
      (findByName l name).isSome := by
  refine findByName_map_isSome l name _ ?_
  intro sub
  by_cases hb : (sub.eventName == n) = true
  · simp only [if_pos hb, hf]
  · simp only [if_neg hb]

theorem findByName_updateById_isSome (l : List Subscription) (i : Nat)
    (name : String) (f : Subscription → Subscription)
    (hf : ∀ sub, (f sub).eventName = sub.eventName) :
    (findByName (updateById l i f) name).isSome =
      (findByName l name).isSome := by
  refine findByName_map_isSome l name _ ?_
  intro sub
  by_cases hb : (sub.eventID == i) = true
  · simp only [if_pos hb, hf]
  · simp only [if_neg hb]

/-- The per-name subscribe-call invariant preserved by every multiplexer
step. -/
def SubInv (s : ApiState) : Prop :=
  ∀ name, subscribeCount s name =
    if (findByName s.listeners name).isSome then 1 else 0

theorem addEventListener_of_not_found (s : ApiState) (name : String) (h : Nat)
    (hfind : findByName s.listeners name = none) :
    addEventListener s name h =
      { s with
        alloc := (nextId s.alloc).2
        listeners := s.listeners ++
          [{ eventID := (nextId s.alloc).1, eventName := name, data := none,
             handlers := [h] }]
        subscribeCalls := s.subscribeCalls ++ [((nextId s.alloc).1, name)] } := by
  unfold addEventListener
  rw [hfind]

theorem addEventListener_of_found (s : ApiState) (name : String) (h : Nat)
    (sub : Subscription) (hfind : findByName s.listeners name = some sub) :
    addEventListener s name h =
      { s with
        listeners := updateByName s.listeners name
          (fun sub => { sub with handlers := sub.handlers ++ [h] })
        invocations := s.invocations ++
          (match sub.data with
           | some v => if v = 0 then [] else [(h, v)]
           | none => []) } := by
  unfold addEventListener
  rw [hfind]

theorem stepApi_preserves_SubInv (s s' : ApiState) (op : ApiOp)
    (hstep : stepApi s op = some s') (hs : SubInv s) : SubInv s' := by
  cases op with
  | add name0 h =>
    simp only [stepApi, Option.some.injEq] at hstep
    subst hstep
    cases hfind : findByName s.listeners name0 with
    | none =>
      rw [addEventListener_of_not_found s name0 h hfind]
      intro name
      unfold subscribeCount findByName
      simp only [List.filter_append, List.length_append, List.find?_append]
      by_cases heq : name0 = name
      · subst heq
        have h0 := hs name0
        rw [hfind] at h0
        simp only [Option.isSome_none, Bool.false_eq_true, if_false] at h0
        unfold subscribeCount at h0
        rw [h0]
        have hfindn : List.find? (fun sub => sub.eventName == name0)
            s.listeners = none := hfind
        rw [hfindn]
        simp
      · have h0 := hs name
        unfold subscribeCount findByName at h0
        rw [h0]
        have hbeq : (name0 == name) = false := by
          simpa using heq
        simp [hbeq, heq]
    | some sub =>
      rw [addEventListener_of_found s name0 h sub hfind]
      intro name
      have h0 := hs name
      unfold subscribeCount findByName at h0 ⊢
      simp only
      rw [show (updateByName s.listeners name0
            (fun sub => { sub with handlers := sub.handlers ++ [h] })).find?
              (fun sub => sub.eventName == name) =
          findByName (updateByName s.listeners name0
            (fun sub => { sub with handlers := sub.handlers ++ [h] })) name
          from rfl]
      have hps := findByName_updateByName_isSome s.listeners name0 name
        (fun sub => { sub with handlers := sub.handlers ++ [h] })
        (fun _ => rfl)
      rw [hps]
      exact h0
  | dispatch i d =>
    simp only [stepApi, Option.some.injEq] at hstep
    subst hstep
    unfold handleSystemEvent
    cases hfind : findById s.listeners i with
    | none => exact hs
    | some sub =>
      intro name
      have h0 := hs name
      unfold subscribeCount findByName at h0 ⊢
      simp only
      rw [show (updateById s.listeners i
            (fun sub => { sub with data := some d })).find?
              (fun sub => sub.eventName == name) =
          findByName (updateById s.listeners i
            (fun sub => { sub with data := some d })) name
          from rfl]
      have hps := findByName_updateById_isSome s.listeners i name
        (fun sub => { sub with data := some d }) (fun _ => rfl)
      rw [hps]
      exact h0
  | remove name0 h =>
    simp only [stepApi] at hstep
    unfold removeEventListener at hstep
    cases hfind : findByName s.listeners name0 with
    | none => rw [hfind] at hstep; cases hstep
    | some sub =>
      rw [hfind] at hstep
      simp only [Option.some.injEq] at hstep
      subst hstep
      intro name
      have h0 := hs name
      unfold subscribeCount findByName at h0 ⊢
      simp only
      rw [show (updateByName s.listeners name0
            (fun sub => { sub with handlers := sub.handlers.erase h })).find?
              (fun sub => sub.eventName == name) =
          findByName (updateByName s.listeners name0
            (fun sub => { sub with handlers := sub.handlers.erase h })) name
          from rfl]
      have hps := findByName_updateByName_isSome s.listeners name0 name
        (fun sub => { sub with handlers := sub.handlers.erase h })
        (fun _ => rfl)
      rw [hps]
      exact h0

theorem runApiFrom_preserves_SubInv (ops : List ApiOp) :
    ∀ (s s' : ApiState), runApiFrom s ops = some s' → SubInv s → SubInv s' := by
  induction ops with
  | nil =>
    intro s s' hrun hs
    simp only [runApiFrom, Option.some.injEq] at hrun
    subst hrun
    exact hs
  | cons op ops ih =>
    intro s s' hrun hs
    unfold runApiFrom at hrun
    cases hstep : stepApi s op with
    | none => rw [hstep] at hrun; cases hrun
    | some s1 =>
      rw [hstep] at hrun
      exact ih s1 s' hrun (stepApi_preserves_SubInv s s1 op hstep hs)

/-- C4: after any run on a fresh instance, the number of low-level
`subscribeToSystemEvent` calls made for an event name is exactly 1 when a
subscription for it exists and 0 otherwise; and registering a further handler
for a name that already has a subscription issues no additional subscribe
call. -/
theorem one_subscribe_per_event_name (ops : List ApiOp) (s : ApiState)
    (name : String) (h' : Nat) (hrun : runApi ops = some s) :
    subscribeCount s name =
        (if (findByName s.listeners name).isSome then 1 else 0) ∧
      ((findByName s.listeners name).isSome →
        (addEventListener s name h').subscribeCalls = s.subscribeCalls) := by
  constructor
  · exact runApiFrom_preserves_SubInv ops initApiState s hrun
      (fun _ => rfl) name
  · intro hsome
    cases hfind : findByName s.listeners name with
    | none => rw [hfind] at hsome; cases hsome
    | some sub => rw [addEventListener_of_found s name h' sub hfind]

/-- Witness for `one_subscribe_per_event_name`: one registration for
"Paused" yields exactly one subscribe call, and a second registration adds
none. -/
theorem one_subscribe_per_event_name_witness :
    (runApi [ApiOp.add "Paused" 1] =
        some { alloc := { id := 2, reserved := [1] }
               listeners := [{ eventID := 1, eventName := "Paused",
                               data := none, handlers := [1] }]
               subscribeCalls := [(1, "Paused")]
               invocations := [] }) ∧
      (subscribeCount
            { alloc := { id := 2, reserved := [1] }
              listeners := [{ eventID := 1, eventName := "Paused",
                              data := none, handlers := [1] }]
              subscribeCalls := [(1, "Paused")]
              invocations := [] } "Paused" =
          (if (findByName
              [{ eventID := 1, eventName := "Paused", data := none,
                 handlers := [1] }] "Paused").isSome then 1 else 0) ∧
        ((findByName
            [{ eventID := 1, eventName := "Paused", data := none,
               handlers := [1] }] "Paused").isSome →
          (addEventListener
              { alloc := { id := 2, reserved := [1] }
                listeners := [{ eventID := 1, eventName := "Paused",
                                data := none, handlers := [1] }]
                subscribeCalls := [(1, "Paused")]
                invocations := [] } "Paused" 2).subscribeCalls =
            [(1, "Paused")])) :=
  ⟨by decide,
    one_subscribe_per_event_name [ApiOp.add "Paused" 1]
      { alloc := { id := 2, reserved := [1] }
        listeners := [{ eventID := 1, eventName := "Paused", data := none,
                        handlers := [1] }]
        subscribeCalls := [(1, "Paused")]
        invocations := [] } "Paused" 2 (by decide)⟩

/-- C5 counterexample: after dispatching the falsy value 0 for "Paused", a
handler registered afterwards is appended (handlers become [1, 2]) and the
last value some 0 is cached, yet the invocation trace stays [(1, 0)] — the
late handler is never invoked with the previously dispatched value, because
the replay guard `if (data)` is a JS truthiness test. -/
theorem late_handler_missed_falsy_replay :
    (runApi [ApiOp.add "Paused" 1, ApiOp.dispatch 1 0,
        ApiOp.add "Paused" 2]).map
        (fun s => ((findByName s.listeners "Paused").map Subscription.data,
          (findByName s.listeners "Paused").map Subscription.handlers,
          s.invocations)) =
      some (some (some 0), some [1, 2], [(1, 0)]) := by
  decide

/-- C5 amended: a handler registered for a name whose subscription already
caches a dispatched last value is invoked synchronously, during registration,
with that value — provided the value is truthy (nonzero); a falsy cached
value is not replayed. -/
theorem replay_last_value_amended (s : ApiState) (name : String)
    (sub : Subscription) (h : Nat) (v : Int)
    (hfind : findByName s.listeners name = some sub)
    (hdata : sub.data = some v) (hv : v ≠ 0) :
    (addEventListener s name h).invocations = s.invocations ++ [(h, v)] := by
  rw [addEventListener_of_found s name h sub hfind]
  simp [hdata, hv]

/-- Witness for `replay_last_value_amended` at a state caching the value 5. -/
theorem replay_last_value_amended_witness :
    (findByName [{ eventID := 1, eventName := "Paused", data := some 5,
                   handlers := [1] }] "Paused" =
      some { eventID := 1, eventName := "Paused", data := some 5,
             handlers := [1] }) ∧
      (Subscription.data { eventID := 1, eventName := "Paused",
                           data := some 5, handlers := [1] } = some 5) ∧
      ((5 : Int) ≠ 0) ∧
      ((addEventListener
          { alloc := { id := 2, reserved := [1] }
            listeners := [{ eventID := 1, eventName := "Paused",
                            data := some 5, handlers := [1] }]
            subscribeCalls := [(1, "Paused")]
            invocations := [] } "Paused" 2).invocations = [] ++ [(2, 5)]) :=
  ⟨by decide, by decide, by decide,
    replay_last_value_amended
      { alloc := { id := 2, reserved := [1] }
        listeners := [{ eventID := 1, eventName := "Paused", data := some 5,
                        handlers := [1] }]
        subscribeCalls := [(1, "Paused")]
        invocations := [] } "Paused"
      { eventID := 1, eventName := "Paused", data := some 5, handlers := [1] }
      2 5 (by decide) (by decide) (by decide)⟩

/-- `MSFS_API.off` simply delegates to `removeEventListener`. -/
def off (s : ApiState) (eventName : String) (h : Nat) : Option ApiState :=
  removeEventListener s eventName h

/-- C10: calling `off` for an event name with no subscription entry is not a
no-op: `e[eventName].handlers` dereferences a missing entry and throws a
`TypeError` (modelled as `none`); with an existing entry the call succeeds. -/
theorem off_throws_without_entry (s : ApiState) (name : String) (h : Nat) :
    (findByName s.listeners name = none → off s name h = none) ∧
      (∀ sub, findByName s.listeners name = some sub →
        (off s name h).isSome = true) := by
  constructor
  · intro hfind
    unfold off removeEventListener
    rw [hfind]
  · intro sub hfind
    unfold off removeEventListener
    rw [hfind]
    rfl

/-- Witness for `off_throws_without_entry`: on a fresh instance `off` throws;
after one registration it succeeds. -/
theorem off_throws_without_entry_witness :
    (findByName initApiState.listeners "Paused" = none ∧
        off initApiState "Paused" 1 = none) ∧
      (findByName [{ eventID := 1, eventName := "Paused", data := none,
                     handlers := [1] }] "Paused" =
          some { eventID := 1, eventName := "Paused", data := none,
                 handlers := [1] } ∧
        (off { alloc := { id := 2, reserved := [1] }
               listeners := [{ eventID := 1, eventName := "Paused",
                               data := none, handlers := [1] }]
               subscribeCalls := [(1, "Paused")]
               invocations := [] } "Paused" 1).isSome = true) :=
  ⟨⟨by decide, (off_throws_without_entry initApiState "Paused" 1).1 (by decide)⟩,
    ⟨by decide,
      (off_throws_without_entry
          { alloc := { id := 2, reserved := [1] }
            listeners := [{ eventID := 1, eventName := "Paused", data := none,
                            handlers := [1] }]
            subscribeCalls := [(1, "Paused")]
            invocations := [] } "Paused" 1).2
        { eventID := 1, eventName := "Paused", data := none, handlers := [1] }
        (by decide)⟩⟩

/-! ### Paginated facility-list retrieval (src `AirportHandler.init`)

The cache build registers an `airportList` handler, accumulates
`data.airports` from every page whose `requestID` matches, and deregisters
itself (`handle.off`) exactly when `entryNumber >= outOf - 1`. Pages are
modelled as records and airports by abstract entry tokens; `entryNumber` and
`outOf` are protocol integers, and the `outOf - 1` fence-post is computed in
`Int` as in JS. -/

structure Page where
  requestID : Nat
  entryNumber : Int
  outOf : Int
  airports : List Nat
deriving Repr, DecidableEq

structure PageState where
  registered : Bool
  list : List Nat
deriving Repr, DecidableEq

/-- One inbound `airportList` event: ignored once the handler is
deregistered or when the `requestID` does not match; otherwise its entries
are appended and the handler deregisters itself on the closing page. -/
def processPage (reqId : Nat) (s : PageState) (p : Page) : PageState :=
  if s.registered = false then s
  else if p.requestID = reqId then
    { registered := if p.entryNumber ≥ p.outOf - 1 then false else true
      list := s.list ++ p.airports }
  else s

/-- The accumulation state after a sequence of `airportList` events, starting
from the freshly registered handler with an empty `list`. -/
def processPages (reqId : Nat) (pages : List Page) : PageState :=
  pages.foldl (processPage reqId) { registered := true, list := [] }

theorem processPage_of_deregistered (reqId : Nat) (l : List Nat) (p : Page) :
    processPage reqId { registered := false, list := l } p =
      { registered := false, list := l } := by
  unfold processPage
  simp

theorem foldl_processPage_deregistered (reqId : Nat) (l : List Nat)
    (pages : List Page) :
    pages.foldl (processPage reqId) { registered := false, list := l } =
      { registered := false, list := l } := by
  induction pages with
  | nil => rfl
  | cons p rest ih =>
    rw [List.foldl_cons, processPage_of_deregistered, ih]

theorem foldl_processPage_accumulate (reqId : Nat) (before : List Page)
    (hb : ∀ p ∈ before, p.requestID = reqId ∧ p.entryNumber < p.outOf - 1) :
    ∀ l : List Nat,
      before.foldl (processPage reqId) { registered := true, list := l } =
        { registered := true,
          list := l ++ before.flatMap Page.airports } := by
  induction before with
  | nil => intro l; simp
  | cons p rest ih =>
    intro l
    obtain ⟨hreq, hfence⟩ := hb p (List.mem_cons_self p rest)
    have hstep : processPage reqId { registered := true, list := l } p =
        { registered := true, list := l ++ p.airports } := by
      unfold processPage
      simp only [Bool.true_eq_false, if_false, if_pos hreq]
      rw [if_neg (by omega)]
    rw [List.foldl_cons, hstep,
      ih (fun q hq => hb q (List.mem_cons_of_mem p hq)) (l ++ p.airports)]
    simp

/-- C3: for any page sequence in which every page before the stopping page
matches the request ID and has `entryNumber < outOf - 1`, and the stopping
page matches and has `entryNumber ≥ outOf - 1`, the accumulated entries are
exactly those of the pages up to and including the stopping page, the handler
is deregistered there, and any pages delivered afterwards are never
consumed — the final state is the one reached at the stopping page. -/
theorem pagination_stops_at_fence (reqId : Nat) (before after : List Page)
    (stop : Page)
    (hb : ∀ p ∈ before, p.requestID = reqId ∧ p.entryNumber < p.outOf - 1)
    (hreq : stop.requestID = reqId)
    (hfence : stop.entryNumber ≥ stop.outOf - 1) :
    processPages reqId (before ++ stop :: after) =
        { registered := false,
          list := (before ++ [stop]).flatMap Page.airports } ∧
      processPages reqId (before ++ stop :: after) =
        processPages reqId (before ++ [stop]) := by
  have hstop : ∀ l : List Nat,
      processPage reqId { registered := true, list := l } stop =
        { registered := false, list := l ++ stop.airports } := by
    intro l
    unfold processPage
    simp only [Bool.true_eq_false, if_false, if_pos hreq]
    rw [if_pos hfence]
  have hmain : ∀ tail : List Page,
      processPages reqId (before ++ stop :: tail) =
        { registered := false,
          list := (before.flatMap Page.airports) ++ stop.airports } := by
    intro tail
    unfold processPages
    rw [List.foldl_append, foldl_processPage_accumulate reqId before hb [],
      List.foldl_cons]
    simp only [List.nil_append]
    rw [hstop, foldl_processPage_deregistered]
  constructor
  · rw [hmain after]
    simp
  · rw [hmain after, show before ++ [stop] = before ++ stop :: [] from rfl,
      hmain []]

/-- Witness for `pagination_stops_at_fence`: the spec's `outOf = 3` example —
pages 0, 1, 2 of 3 are consumed, the handler stops at `entryNumber = 2`, and
a fourth delivered page contributes nothing. -/
theorem pagination_stops_at_fence_witness :
    ((∀ p ∈ [{ requestID := 7, entryNumber := 0, outOf := 3,
               airports := [10] },
             { requestID := 7, entryNumber := 1, outOf := 3,
               airports := [11] }],
        Page.requestID p = 7 ∧ Page.entryNumber p < Page.outOf p - 1) ∧
      Page.requestID { requestID := 7, entryNumber := 2, outOf := 3,
                       airports := [12] } = 7 ∧
      Page.entryNumber { requestID := 7, entryNumber := 2, outOf := 3,
                         airports := [12] } ≥
        Page.outOf { requestID := 7, entryNumber := 2, outOf := 3,
                     airports := [12] } - 1) ∧
      processPages 7
          [{ requestID := 7, entryNumber := 0, outOf := 3, airports := [10] },
           { requestID := 7, entryNumber := 1, outOf := 3, airports := [11] },
           { requestID := 7, entryNumber := 2, outOf := 3, airports := [12] },
           { requestID := 7, entryNumber := 3, outOf := 4, airports := [13] }] =
        { registered := false, list := [10, 11, 12] } :=
  ⟨⟨by decide, by decide, by decide⟩, by
    have h := pagination_stops_at_fence 7
      [{ requestID := 7, entryNumber := 0, outOf := 3, airports := [10] },
       { requestID := 7, entryNumber := 1, outOf := 3, airports := [11] }]
      [{ requestID := 7, entryNumber := 3, outOf := 4, airports := [13] }]
      { requestID := 7, entryNumber := 2, outOf := 3, airports := [12] }
      (by decide) (by decide) (by decide)
    exact h.1⟩

/-! ### GeoQuery over the cached airport set (src `AirportHandler.get` /
`getAllNearbyAirports` / `getAirport`, helper `getVarArg`)

Airports are the records decoded into the cache. Only the `icao`,
`latitude` and `longitude` fields participate in the queries; the remaining
decoded fields (altitude, declination, names, region, runways) are carried
through the object spread unchanged and are omitted here. JS strings are
`List Char`; JS numbers in the geometric computation are idealised as `Rat`,
with `Math.PI` taken as the exact rational value of its IEEE double. -/

structure Airport where
  icao : List Char
  latitude : Rat
  longitude : Rat
deriving Repr, DecidableEq

/-- The annotated result `{ ...airport, distance }` produced by the nearby
query. -/
structure NearbyAirport where
  airport : Airport
  distance : Rat
deriving Repr, DecidableEq

def KM_PER_NM : Rat := 1.852

/-- The IEEE-754 double value of `Math.PI`, as an exact rational. -/
def mathPI : Rat := 884279719003555 / 281474976710656

/-- `radians(deg) = (deg / 180) * Math.PI`. -/
def radians (deg : Rat) : Rat := (deg / 180) * mathPI

/-- `getVarArg(varName)`: `undefined` unless the name contains a colon,
otherwise the substring after the first colon. -/
def getVarArg (varName : List Char) : Option (List Char) :=
  if (':' : Char) ∈ varName then
    some (varName.drop (varName.indexOf ':' + 1))
  else none

/-- `AirportHandler.getAllNearbyAirports`, parameterised over the
great-circle distance function. Modelled from the spec: the imported
`getDistanceBetweenPoints` lives in utils.js, which is not part of src/, and
the spec describes it only as "great-circle distance computation", so it is
an explicit parameter `d` here (returning kilometres). `radiusArg` is the
parsed numeric value of the optional ":radius" suffix (`getVarArg(varName)`
coerced to a number by the JS multiplication), `?? 200` when absent. The
final `found.sort((a, b) => a.distance - b.distance)` is the JS stable
ascending sort, realised as a stable merge sort. -/
def getAllNearbyAirports (d : Rat → Rat → Rat → Rat → Rat)
    (airports : List Airport) (lat long : Rat) (radiusArg : Option Rat) :
    List NearbyAirport :=
  let distanceNM := radiusArg.getD 200
  let KM := distanceNM * KM_PER_NM
  let found := airports.foldl (fun acc airport =>
    let alat := radians airport.latitude
    let along := radians airport.longitude
    let dd := d lat long alat along
    if dd ≤ KM then
      acc ++ [{ airport := airport, distance := dd / KM_PER_NM }]
    else acc) []
  found.mergeSort (fun a b => decide (a.distance ≤ b.distance))

/-- `AirportHandler.getAirport`: extract the ICAO code after the colon and
return the first cached airport whose `icao` strictly equals it (`===`).
When the name has no colon, `icao` is `undefined` and the strict comparison
fails for every airport, giving `undefined`. -/
def getAirport (airports : List Airport) (varName : List Char) :
    Option Airport :=
  match getVarArg varName with
  | none => none
  | some icao => airports.find? (fun airport => airport.icao == icao)

theorem getVarArg_append (pre code : List Char) (hpre : (':' : Char) ∉ pre) :
    getVarArg (pre ++ ':' :: code) = some code := by
  unfold getVarArg
  rw [if_pos (by simp)]
  rw [List.indexOf_append_of_not_mem hpre]
  have h0 : List.indexOf ':' (':' :: code) = 0 := List.indexOf_cons_self _ _
  rw [h0]
  have hsplit : pre ++ ':' :: code = (pre ++ [':']) ++ code := by simp
  rw [hsplit,
    List.drop_left' (show (pre ++ [':']).length = List.length pre + 0 + 1 by
      simp)]

/-- The `forEach`/push accumulation of the nearby query equals a
`filterMap`. -/
theorem nearby_foldl_eq_filterMap (d : Rat → Rat → Rat → Rat → Rat)
    (lat long KM : Rat) :
    ∀ (airports : List Airport) (acc : List NearbyAirport),
      airports.foldl (fun acc airport =>
          if d lat long (radians airport.latitude)
              (radians airport.longitude) ≤ KM then
            acc ++ [{ airport := airport,
                      distance := d lat long (radians airport.latitude)
                          (radians airport.longitude) / KM_PER_NM }]
          else acc) acc =
        acc ++ airports.filterMap (fun airport =>
          if d lat long (radians airport.latitude)
              (radians airport.longitude) ≤ KM then
            some { airport := airport,
                   distance := d lat long (radians airport.latitude)
                       (radians airport.longitude) / KM_PER_NM }
          else none) := by
  intro airports
  induction airports with
  | nil => intro acc; simp
  | cons a t ih =>
    intro acc
    rw [List.foldl_cons, List.filterMap_cons]
    by_cases hd : d lat long (radians a.latitude) (radians a.longitude) ≤ KM
    · rw [if_pos hd, if_pos hd, ih]
      simp
    · rw [if_neg hd, if_neg hd, ih]

theorem getAllNearbyAirports_eq (d : Rat → Rat → Rat → Rat → Rat)
    (airports : List Airport) (lat long : Rat) (radiusArg : Option Rat) :
    getAllNearbyAirports d airports lat long radiusArg =
      (airports.filterMap (fun airport =>
        if d lat long (radians airport.latitude)
            (radians airport.longitude) ≤ (radiusArg.getD 200) * KM_PER_NM then
          some { airport := airport,
                 distance := d lat long (radians airport.latitude)
                     (radians airport.longitude) / KM_PER_NM }
        else none)).mergeSort
        (fun a b => decide (a.distance ≤ b.distance)) := by
  have h := nearby_foldl_eq_filterMap d lat long
    ((radiusArg.getD 200) * KM_PER_NM) airports []
  rw [List.nil_append] at h
  have h0 : getAllNearbyAirports d airports lat long radiusArg =
      (airports.foldl (fun (acc : List NearbyAirport) (airport : Airport) =>
        if d lat long (radians airport.latitude)
            (radians airport.longitude) ≤ (radiusArg.getD 200) * KM_PER_NM then
          acc ++ [{ airport := airport,
                    distance := d lat long (radians airport.latitude)
                        (radians airport.longitude) / KM_PER_NM }]
        else acc) []).mergeSort
        (fun a b => decide (a.distance ≤ b.distance)) := rfl
  rw [h0, h]

/-- C6: the nearby-airports query returns exactly the cached airports whose
(abstract great-circle) distance from the reference point is at most the
radius (default 200 NM, converted to kilometres by ×1.852), each annotated
with its distance in nautical miles, sorted ascending by distance with ties
kept in input order. -/
theorem nearby_exact_sorted_stable (d : Rat → Rat → Rat → Rat → Rat)
    (airports : List Airport) (lat long : Rat) (radiusArg : Option Rat) :
    List.Perm (getAllNearbyAirports d airports lat long radiusArg)
        (airports.filterMap (fun airport =>
          if d lat long (radians airport.latitude)
              (radians airport.longitude) ≤
                (radiusArg.getD 200) * KM_PER_NM then
            some { airport := airport,
                   distance := d lat long (radians airport.latitude)
                       (radians airport.longitude) / KM_PER_NM }
          else none)) ∧
      (getAllNearbyAirports d airports lat long radiusArg).Pairwise
        (fun a b => a.distance ≤ b.distance) ∧
      ∀ q : Rat,
        (getAllNearbyAirports d airports lat long radiusArg).filter
            (fun x => decide (x.distance = q)) =
          (airports.filterMap (fun airport =>
            if d lat long (radians airport.latitude)
                (radians airport.longitude) ≤
                  (radiusArg.getD 200) * KM_PER_NM then
              some { airport := airport,
                     distance := d lat long (radians airport.latitude)
                         (radians airport.longitude) / KM_PER_NM }
            else none)).filter (fun x => decide (x.distance = q)) := by
  have htrans : ∀ a b c : NearbyAirport,
      (fun a b : NearbyAirport => decide (a.distance ≤ b.distance)) a b →
      (fun a b : NearbyAirport => decide (a.distance ≤ b.distance)) b c →
      (fun a b : NearbyAirport => decide (a.distance ≤ b.distance)) a c := by
    intro a b c hab hbc
    simp only [decide_eq_true_eq] at hab hbc ⊢
    exact le_trans hab hbc
  have htotal : ∀ a b : NearbyAirport,
      ((fun a b : NearbyAirport => decide (a.distance ≤ b.distance)) a b ||
        (fun a b : NearbyAirport => decide (a.distance ≤ b.distance)) b a) := by
    intro a b
    rcases le_total a.distance b.distance with h | h <;> simp [h]
  rw [getAllNearbyAirports_eq]
  refine ⟨List.mergeSort_perm _ _, ?_, ?_⟩
  · exact (List.sorted_mergeSort htrans htotal _).imp
      (fun h => of_decide_eq_true h)
  · intro q
    set annotated := airports.filterMap (fun airport =>
      if d lat long (radians airport.latitude)
          (radians airport.longitude) ≤
            (radiusArg.getD 200) * KM_PER_NM then
        some ({ airport := airport,
                distance := d lat long (radians airport.latitude)
                    (radians airport.longitude) / KM_PER_NM } : NearbyAirport)
      else none) with hann
    set c := annotated.filter
      (fun x : NearbyAirport => decide (x.distance = q)) with hc
    have hcq : ∀ x ∈ c, x.distance = q := by
      intro x hx
      have := List.of_mem_filter hx
      simpa using this
    have hc_pair : c.Pairwise
        (fun a b : NearbyAirport => decide (a.distance ≤ b.distance)) := by
      refine List.pairwise_of_forall_mem_list ?_
      intro a ha b hb
      have h1 := hcq a ha
      have h2 := hcq b hb
      simp [h1, h2]
    have hc_sub : List.Sublist c annotated := List.filter_sublist _
    have hsub := List.sublist_mergeSort htrans htotal hc_pair hc_sub
    have hfilter_self : c.filter (fun x => decide (x.distance = q)) = c := by
      rw [List.filter_eq_self]
      intro x hx
      simp [hcq x hx]
    have hsub2 : List.Sublist c ((annotated.mergeSort
        (fun a b => decide (a.distance ≤ b.distance))).filter
          (fun x => decide (x.distance = q))) := by
      have := hsub.filter (fun x => decide (x.distance = q))
      rwa [hfilter_self] at this
    have hperm : List.Perm ((annotated.mergeSort
        (fun a b => decide (a.distance ≤ b.distance))).filter
          (fun x => decide (x.distance = q))) c :=
      (List.mergeSort_perm annotated _).filter _
    exact (hsub2.eq_of_length hperm.length_eq.symm).symm

/-- C7: the "AIRPORT:" + ICAO query returns the first cached airport whose
`icao` field equals the code exactly (the comparison is `===` on strings,
hence case-sensitive), and is absent exactly when no cached airport carries
that code. -/
theorem byIcao_first_exact_match (airports : List Airport)
    (code : List Char) :
    (getAirport airports (("AIRPORT:").toList ++ code) = none ↔
        ∀ a ∈ airports, a.icao ≠ code) ∧
      ∀ a, getAirport airports (("AIRPORT:").toList ++ code) = some a →
        a.icao = code ∧
          ∃ pre post, airports = pre ++ a :: post ∧
            ∀ x ∈ pre, x.icao ≠ code := by
  have hvar : getVarArg (("AIRPORT:").toList ++ code) = some code := by
    have hpfx : ("AIRPORT:").toList = ("AIRPORT").toList ++ [':'] := by
      decide
    rw [hpfx, List.append_assoc, List.singleton_append]
    exact getVarArg_append _ _ (by decide)
  have hget : getAirport airports (("AIRPORT:").toList ++ code) =
      airports.find? (fun airport => airport.icao == code) := by
    unfold getAirport
    rw [hvar]
  rw [hget]
  constructor
  · rw [List.find?_eq_none]
    constructor
    · intro h a ha
      have := h a ha
      simpa using this
    · intro h a ha
      simpa using h a ha
  · intro a hfind
    rw [List.find?_eq_some] at hfind
    obtain ⟨hp, pre, post, hsplit, hpre⟩ := hfind
    refine ⟨by simpa using hp, pre, post, hsplit, ?_⟩
    intro x hx
    have := hpre x hx
    simpa using this

/-- Witness for `byIcao_first_exact_match`: the spec's KSEA example, on a
cache containing KSEA and on one without it. -/
theorem byIcao_first_exact_match_witness :
    (getAirport
        [{ icao := ("KSEA").toList, latitude := 47, longitude := -122 }]
        (("AIRPORT:").toList ++ ("KSEA").toList) =
      some { icao := ("KSEA").toList, latitude := 47, longitude := -122 }) ∧
      (Airport.icao { icao := ("KSEA").toList, latitude := 47,
                      longitude := -122 } = ("KSEA").toList ∧
        ∃ pre post,
          [{ icao := ("KSEA").toList, latitude := 47, longitude := -122 }] =
            pre ++ { icao := ("KSEA").toList, latitude := 47,
                      longitude := -122 } :: post ∧
            ∀ x ∈ pre, Airport.icao x ≠ ("KSEA").toList) ∧
      getAirport
        [{ icao := ("KBFI").toList, latitude := 47, longitude := -122 }]
        (("AIRPORT:").toList ++ ("KSEA").toList) = none :=
  ⟨by decide,
    (byIcao_first_exact_match
        [{ icao := ("KSEA").toList, latitude := 47, longitude := -122 }]
        (("KSEA").toList)).2
      { icao := ("KSEA").toList, latitude := 47, longitude := -122 }
      (by decide),
    (byIcao_first_exact_match
        [{ icao := ("KBFI").toList, latitude := 47, longitude := -122 }]
        (("KSEA").toList)).1.mpr (by decide)⟩

/-! ### Cache initialisation error handling (src `AirportHandler.init`,
cache-loading phase)

The three `try`/`catch` blocks of `init` are embedded as an explicit
environment of fallible effects: `readRes` is `fs.readFileSync` on the cache
path, `gunzipRes` is `zlib.gunzipSync`, `parseRes` is `JSON.parse` followed
by decoding into the airport array. Byte buffers are abstract tokens
(`Nat`). A failed read leaves `zipped` undefined, so the subsequent
`gunzipSync(undefined)` throws and is caught, and likewise
`JSON.parse(undefined)`; control then falls out of the cache branch into the
full rebuild. Console output is recorded as a log trace. -/

structure CacheEnv where
  fileExists : Bool
  readRes : Except (List Char) Nat
  gunzipRes : Nat → Except (List Char) Nat
  parseRes : Nat → Except (List Char) (List Airport)

inductive CacheLog where
  | fileReadError
  | zlibError
  | jsonParseError
  | countMismatch (live cached : Nat)
  | buildingNew
deriving Repr, DecidableEq

inductive InitOutcome where
  | fromCache (airports : List Airport) (warned : Bool)
  | rebuild
deriving Repr, DecidableEq

/-- The cache-loading phase of `AirportHandler.init`: each failure is caught
and logged, a fully decoded cache is used even when its length differs from
the simulator-reported `airportCount` (warning only), and any failure falls
through to the full rebuild. -/
def cachePhase (env : CacheEnv) (airportCount : Nat) :
    InitOutcome × List CacheLog :=
  if env.fileExists then
    match env.readRes with
    | .error _ =>
      (.rebuild, [.fileReadError, .zlibError, .jsonParseError, .buildingNew])
    | .ok zipped =>
      match env.gunzipRes zipped with
      | .error _ => (.rebuild, [.zlibError, .jsonParseError, .buildingNew])
      | .ok json =>
        match env.parseRes json with
        | .error _ => (.rebuild, [.jsonParseError, .buildingNew])
        | .ok airports =>
          if airports.length ≠ airportCount then
            (.fromCache airports true,
             [.countMismatch airportCount airports.length])
          else
            (.fromCache airports false, [])
  else (.rebuild, [.buildingNew])

/-- C8: if reading, decompressing or JSON-parsing the persisted cache fails,
the failure is logged and the full rebuild proceeds (the phase returns
normally — no exception propagates); and when the decoded cache's length
differs from the live airport count, only a warning is emitted and the stale
cache is still used. -/
theorem cache_failures_nonfatal (env : CacheEnv) (n : Nat) :
    (env.fileExists = true →
      ((∃ e, env.readRes = .error e) ∨
        (∃ z e, env.readRes = .ok z ∧ env.gunzipRes z = .error e) ∨
        (∃ z j e, env.readRes = .ok z ∧ env.gunzipRes z = .ok j ∧
          env.parseRes j = .error e)) →
      (cachePhase env n).1 = .rebuild ∧ (cachePhase env n).2 ≠ []) ∧
      ∀ z j airports, env.fileExists = true → env.readRes = .ok z →
        env.gunzipRes z = .ok j → env.parseRes j = .ok airports →
        airports.length ≠ n →
        cachePhase env n =
          (.fromCache airports true,
           [.countMismatch n airports.length]) := by
  constructor
  · intro hex hfail
    rcases hfail with ⟨e, he⟩ | ⟨z, e, hz, he⟩ | ⟨z, j, e, hz, hj, he⟩ <;>
      simp [cachePhase, hex, *]
  · intro z j airports hex hz hj hp hlen
    simp [cachePhase, hex, hz, hj, hp, hlen]

/-- Witness for `cache_failures_nonfatal`: a read failure rebuilds; a decoded
two-entry cache against a live count of 1 is used with a warning. -/
theorem cache_failures_nonfatal_witness :
    (cachePhase
        { fileExists := true
          readRes := Except.error ("boom").toList
          gunzipRes := fun _ => Except.error []
          parseRes := fun _ => Except.error [] } 1).1 = InitOutcome.rebuild ∧
      cachePhase
          { fileExists := true
            readRes := Except.ok 0
            gunzipRes := fun _ => Except.ok 0
            parseRes := fun _ => Except.ok
              [{ icao := ("AAAA").toList, latitude := 0, longitude := 0 },
               { icao := ("BBBB").toList, latitude := 0, longitude := 0 }] }
          1 =
        (.fromCache
          [{ icao := ("AAAA").toList, latitude := 0, longitude := 0 },
           { icao := ("BBBB").toList, latitude := 0, longitude := 0 }] true,
         [.countMismatch 1 2]) :=
  ⟨((cache_failures_nonfatal
      { fileExists := true
        readRes := Except.error ("boom").toList
        gunzipRes := fun _ => Except.error []
        parseRes := fun _ => Except.error [] } 1).1 rfl
      (Or.inl ⟨("boom").toList, rfl⟩)).1,
    (cache_failures_nonfatal
        { fileExists := true
          readRes := Except.ok 0
          gunzipRes := fun _ => Except.ok 0
          parseRes := fun _ => Except.ok
            [{ icao := ("AAAA").toList, latitude := 0, longitude := 0 },
             { icao := ("BBBB").toList, latitude := 0, longitude := 0 }] }
        1).2 0 0
      [{ icao := ("AAAA").toList, latitude := 0, longitude := 0 },
       { icao := ("BBBB").toList, latitude := 0, longitude := 0 }]
      rfl rfl rfl rfl (by decide)⟩

/-! ### Unknown property names on get/set (src `MSFS_API.set` /
`MSFS_API.get` / `MSFS_API.addDataDefinitions`)

The `SimVars` table is an external declarative map and enters as a lookup
parameter; only presence matters to these claims, so the definition payload
is `Unit`. `propName.replaceAll("_", " ")` maps single characters. The
thrown `Error` is modelled as an `Except.error` carrying the message and the
allocator state after the `releaseId` performed before the throw. -/

def jsReplaceAllUnderscore (s : List Char) : List Char :=
  s.map (fun c => if c = '_' then ' ' else c)

def setErrMsg (p : List Char) : List Char :=
  ("Cannot set SimVar: \"").toList ++ p ++ ("\" unknown.").toList

def getErrMsg (p : List Char) : List Char :=
  ("Cannot get SimVar: \"").toList ++ p ++ ("\" unknown.").toList

/-- `MSFS_API.set` up to the transport write: replace underscores, reserve an
ID, look the property up; unknown properties release the ID and throw. On
success the ID stays reserved (it is released by the delayed cleanup). -/
def setVar (simVars : List Char → Option Unit) (s : AllocState)
    (propName : List Char) :
    Except (List Char × AllocState) (AllocState × Nat) :=
  let propName' := jsReplaceAllUnderscore propName
  let dataId := (nextId s).1
  let s1 := (nextId s).2
  match simVars propName' with
  | none => .error (setErrMsg propName', releaseId s1 dataId)
  | some _ => .ok (s1, dataId)

/-- `MSFS_API.addDataDefinitions`: walk the property names; the first one
with no `SimVars` entry clears the definition, releases the reserved ID and
throws. -/
def addDataDefinitions (simVars : List Char → Option Unit) (s1 : AllocState)
    (dataId : Nat) : List (List Char) →
    Except (List Char × AllocState) Unit
  | [] => .ok ()
  | p :: rest =>
    match simVars p with
    | none => .error (getErrMsg p, releaseId s1 dataId)
    | some _ => addDataDefinitions simVars s1 dataId rest

/-- `MSFS_API.get` up to issuing the data request: reserve an ID, replace
underscores in every name, add the data definitions. -/
def getVars (simVars : List Char → Option Unit) (s : AllocState)
    (propNames : List (List Char)) :
    Except (List Char × AllocState) (AllocState × Nat) :=
  let dataId := (nextId s).1
  let s1 := (nextId s).2
  match addDataDefinitions simVars s1 dataId
      (propNames.map jsReplaceAllUnderscore) with
  | .error e => .error e
  | .ok _ => .ok (s1, dataId)

theorem releaseId_nextId_reserved (s : AllocState) :
    (releaseId (nextId s).2 (nextId s).1).reserved = s.reserved := by
  have hfresh : (nextId s).1 ∉ s.reserved := findFree_not_mem _ _
  have h2 : (releaseId (nextId s).2 (nextId s).1).reserved =
      (s.reserved ++ [(nextId s).1]).erase (nextId s).1 := rfl
  rw [h2, List.erase_append_right _ hfresh, List.erase_cons_head,
    List.append_nil]

theorem addDataDefinitions_first_unknown (simVars : List Char → Option Unit)
    (s1 : AllocState) (dataId : Nat) (p : List Char)
    (rest : List (List Char)) (hp : simVars p = none) :
    ∀ pre : List (List Char), (∀ x ∈ pre, (simVars x).isSome) →
      addDataDefinitions simVars s1 dataId (pre ++ p :: rest) =
        .error (getErrMsg p, releaseId s1 dataId) := by
  intro pre
  induction pre with
  | nil =>
    intro _
    rw [List.nil_append]
    unfold addDataDefinitions
    rw [hp]
  | cons x xs ih =>
    intro hpre
    have hx : (simVars x).isSome := hpre x (List.mem_cons_self x xs)
    rw [List.cons_append]
    unfold addDataDefinitions
    cases hsx : simVars x with
    | none => rw [hsx] at hx; cases hx
    | some u => exact ih (fun y hy => hpre y (List.mem_cons_of_mem x hy))

/-- C9: a property name with no `SimVars` entry makes both `set` and `get`
fail with a local error whose message contains the (space-normalised)
property name, and the ID reserved for the operation is released back to the
allocator before the error propagates, leaving the reserved set as it was. -/
theorem unknown_simvar_releases_id (simVars : List Char → Option Unit)
    (s : AllocState) (propName : List Char)
    (props pre rest : List (List Char))
    (hunknown : simVars (jsReplaceAllUnderscore propName) = none)
    (hsplit : props.map jsReplaceAllUnderscore =
      pre ++ jsReplaceAllUnderscore propName :: rest)
    (hpre : ∀ x ∈ pre, (simVars x).isSome) :
    (setVar simVars s propName =
        Except.error (setErrMsg (jsReplaceAllUnderscore propName),
          releaseId (nextId s).2 (nextId s).1) ∧
      (∃ l r, setErrMsg (jsReplaceAllUnderscore propName) =
        l ++ jsReplaceAllUnderscore propName ++ r) ∧
      (nextId s).1 ∉ (releaseId (nextId s).2 (nextId s).1).reserved ∧
      (releaseId (nextId s).2 (nextId s).1).reserved = s.reserved) ∧
    (getVars simVars s props =
        Except.error (getErrMsg (jsReplaceAllUnderscore propName),
          releaseId (nextId s).2 (nextId s).1) ∧
      ∃ l r, getErrMsg (jsReplaceAllUnderscore propName) =
        l ++ jsReplaceAllUnderscore propName ++ r) := by
  have hres := releaseId_nextId_reserved s
  have hfresh : (nextId s).1 ∉ s.reserved := findFree_not_mem _ _
  refine ⟨⟨?_, ⟨("Cannot set SimVar: \"").toList,
      ("\" unknown.").toList, rfl⟩, ?_, hres⟩, ?_,
    ⟨("Cannot get SimVar: \"").toList, ("\" unknown.").toList, rfl⟩⟩
  · simp only [setVar, hunknown]
  · rw [hres]
    exact hfresh
  · have haddd := addDataDefinitions_first_unknown simVars (nextId s).2
      (nextId s).1 (jsReplaceAllUnderscore propName) rest hunknown pre hpre
    simp only [getVars, hsplit, haddd]

/-- Witness for `unknown_simvar_releases_id` with an empty `SimVars` table,
the fresh allocator state and the property name FOO_BAR. -/
theorem unknown_simvar_releases_id_witness :
    ((fun _ : List Char => (none : Option Unit))
        (jsReplaceAllUnderscore (("FOO_BAR").toList)) = none) ∧
      setVar (fun _ => none) { id := 1, reserved := [] }
          (("FOO_BAR").toList) =
        Except.error (setErrMsg (jsReplaceAllUnderscore (("FOO_BAR").toList)),
          releaseId (nextId { id := 1, reserved := [] }).2
            (nextId { id := 1, reserved := [] }).1) ∧
      getVars (fun _ => none) { id := 1, reserved := [] }
          [("FOO_BAR").toList] =
        Except.error (getErrMsg (jsReplaceAllUnderscore (("FOO_BAR").toList)),
          releaseId (nextId { id := 1, reserved := [] }).2
            (nextId { id := 1, reserved := [] }).1) ∧
      (releaseId (nextId { id := 1, reserved := [] }).2
          (nextId { id := 1, reserved := [] }).1).reserved = [] :=
  ⟨rfl,
    (unknown_simvar_releases_id (fun _ => none) { id := 1, reserved := [] }
        (("FOO_BAR").toList) [("FOO_BAR").toList] [] [] rfl rfl
        (fun x hx => absurd hx (List.not_mem_nil x))).1.1,
    (unknown_simvar_releases_id (fun _ => none) { id := 1, reserved := [] }
        (("FOO_BAR").toList) [("FOO_BAR").toList] [] [] rfl rfl
        (fun x hx => absurd hx (List.not_mem_nil x))).2.1,
    (unknown_simvar_releases_id (fun _ => none) { id := 1, reserved := [] }
        (("FOO_BAR").toList) [("FOO_BAR").toList] [] [] rfl rfl
        (fun x hx => absurd hx (List.not_mem_nil x))).1.2.2.2⟩
